import Mathlib

/-!
Verification development for the loyalty-points engine of `app.py`
(marvlyngkhoi/Loyalty_Points).

The engine is shallowly embedded:
* pandas tables become lists of rows;
* the float-valued columns and parameters become exact rationals (`ℚ`);
* timestamps become a record of calendar fields with the chronological
  order given by a numeric encoding;
* `pd.to_datetime(..., format..., errors..)` becomes a total parser
  returning `Option DateTime` (the `NaT` marker is `none`);
* the in-place column assignment performed by `process_data` on its input
  dataframe is modelled by explicit state passing: the result record
  carries the state of the caller's table object after the call (`post`);
* a pandas division whose denominator is zero produces no defined numeric
  amount (`NaN`/`inf`); an allocation column built from such a division is
  modelled as `none`.
-/

/-- A parsed timestamp (the engine only ever compares timestamps and strips
the time of day, so a plain calendar record suffices). -/
structure DateTime where
  year : Nat
  month : Nat
  day : Nat
  hour : Nat
  minute : Nat
deriving DecidableEq

/-- Numeric encoding of a timestamp; on timestamps with in-range fields it
is injective and its order is chronological order. -/
def DateTime.toNat (t : DateTime) : Nat :=
  (((t.year * 13 + t.month) * 32 + t.day) * 24 + t.hour) * 60 + t.minute

/-- `Series.dt.normalize()`: strip the time of day, keep the date. -/
def DateTime.normalize (t : DateTime) : DateTime :=
  { t with hour := 0, minute := 0 }

/-- Split a character list on a separator character (used to take a raw
timestamp string apart at the fixed separators of `%d-%m-%Y %H:%M`). -/
def splitOnChar (c : Char) : List Char → List (List Char)
  | [] => [[]]
  | x :: xs =>
    if x = c then [] :: splitOnChar c xs
    else
      match splitOnChar c xs with
      | [] => [[x]]
      | g :: gs => (x :: g) :: gs

/-- Value of an all-digit character group, `none` if empty or non-digit. -/
def digitGroup : List Char → Option Nat
  | [] => none
  | cs =>
    if cs.all (fun c => c.isDigit) then
      some (cs.foldl (fun acc c => acc * 10 + (c.toNat - ('0').toNat)) 0)
    else
      none

/-- Leap-year rule used by the calendar validation of `strptime`. -/
def isLeapYear (y : Nat) : Bool :=
  (decide (y % 4 = 0) && decide (y % 100 ≠ 0)) || decide (y % 400 = 0)

/-- Number of days of a month, as validated by `datetime`. -/
def daysInMonth (y m : Nat) : Nat :=
  if m = 2 then (if isLeapYear y then 29 else 28)
  else if m = 4 ∨ m = 6 ∨ m = 9 ∨ m = 11 then 30
  else 31

/-- `pd.to_datetime(value, format = percent-d-m-Y H:M, errors = coerce)` on one
value: parse the fixed pattern `DD-MM-YYYY HH:MM` (day, month, hour and
minute take one or two digits, the year up to four, as `strptime` accepts)
and validate the calendar fields; an unparseable value becomes `none`
(pandas' `NaT`). -/
def parseDatetime (s : String) : Option DateTime :=
  match splitOnChar ' ' s.data with
  | [datePart, timePart] =>
    match splitOnChar '-' datePart, splitOnChar ':' timePart with
    | [ds, ms, ys], [hs, ns] =>
      match digitGroup ds, digitGroup ms, digitGroup ys, digitGroup hs, digitGroup ns with
      | some d, some m, some y, some h, some n =>
        if ds.length ≤ 2 ∧ ms.length ≤ 2 ∧ ys.length ≤ 4 ∧ hs.length ≤ 2 ∧ ns.length ≤ 2
            ∧ 1 ≤ m ∧ m ≤ 12 ∧ 1 ≤ d ∧ d ≤ daysInMonth y m ∧ h ≤ 23 ∧ n ≤ 59 then
          some ⟨y, m, d, h, n⟩
        else
          none
      | _, _, _, _, _ => none
    | _, _ => none
  | _ => none

/-- One cell of the `Datetime` column of a table: either still the raw
string of the input file, or the result of the `pd.to_datetime` conversion
(`none` being the `NaT` marker). -/
inductive Cell where
  | str (s : String)
  | time (t : Option DateTime)
deriving DecidableEq

/-- Parse result of a `Datetime` cell (a converted cell keeps its value). -/
def cellParse : Cell → Option DateTime
  | Cell.str s => parseDatetime s
  | Cell.time t => t

/-- One row of a raw activity table: the `User Id` column, the numeric
measure column (`Amount` for the deposit and withdrawal tables, `Games
Played` for the gameplay table) and the `Datetime` column. -/
structure Row where
  userId : Int
  measure : ℚ
  datetime : Cell
deriving DecidableEq

/-- A raw activity table: whether the `Datetime` column exists at all, and
the rows. -/
structure RawTable where
  hasDatetimeCol : Bool
  rows : List Row
deriving DecidableEq

/-- The `pd.to_datetime` conversion of one row, as performed by the column
assignment in `process_data`. -/
def convertRow (r : Row) : Row :=
  { r with datetime := Cell.time (cellParse r.datetime) }

/-- Number of rows of a table whose `Datetime` value fails to parse
(`invalid_dates` in `process_data`). -/
def invalidCount (df : RawTable) : Nat :=
  (((df.rows.map convertRow).filter (fun r => (cellParse r.datetime).isNone))).length

/-- Result of one `process_data` call.  `output` is the returned table
(`none` when the function returns `None`); `errorMsg` the `st.error`
message, if any; `warningCount` the row count surfaced by `st.warning`, if
any; `post` the state of the caller's table object after the call (the
column assignment `df['Datetime'] = pd.to_datetime(...)` mutates it). -/
structure ProcessResult where
  output : Option RawTable
  errorMsg : Option String
  warningCount : Option Nat
  post : RawTable
deriving DecidableEq

/-- `process_data(df, name)` of `app.py`: require the `Datetime` column
(error naming the table when absent), convert the column in place, and
when invalid dates exist report their count and return the table with
those rows dropped. -/
def process_data (df : RawTable) (name : String) : ProcessResult :=
  if df.hasDatetimeCol = false then
    { output := none
      errorMsg := some (name ++ " data must contain a Datetime column")
      warningCount := none
      post := df }
  else
    let converted : List Row := df.rows.map convertRow
    let dfConv : RawTable := { hasDatetimeCol := true, rows := converted }
    if invalidCount df > 0 then
      { output := some { hasDatetimeCol := true
                         rows := converted.filter (fun r => (cellParse r.datetime).isSome) }
        errorMsg := none
        warningCount := some (invalidCount df)
        post := dfConv }
    else
      { output := some dfConv
        errorMsg := none
        warningCount := none
        post := dfConv }

/-- One row of a normalized table, as consumed by the engine: every row has
a valid parsed timestamp. -/
structure ParsedRow where
  userId : Int
  measure : ℚ
  datetime : DateTime
deriving DecidableEq

/-- The slider and input parameters of the sidebar that feed the engine. -/
structure Params where
  deposit_multiplier : ℚ
  withdrawal_multiplier : ℚ
  frequency_multiplier : ℚ
  gameplay_multiplier : ℚ
  daily_bonus : ℚ
  deposit_cap : ℚ
  bonus_pool : ℚ
deriving DecidableEq

/-- The boolean mask of `calculate_loyalty_points`: rows of one table with
the user's id and a timestamp inside the inclusive window. -/
def filterUser (tbl : List ParsedRow) (uid : Int) (start_date end_date : DateTime) :
    List ParsedRow :=
  tbl.filter (fun r =>
    decide (r.userId = uid) &&
    decide (start_date.toNat ≤ r.datetime.toNat) &&
    decide (r.datetime.toNat ≤ end_date.toNat))

/-- Distinct values of a list, as `Series.unique()` / `set(...)` produce
(only membership and length of the result matter to the engine). -/
def uniqueList {α : Type} [DecidableEq α] : List α → List α
  | [] => []
  | a :: l => if a ∈ l then uniqueList l else a :: uniqueList l

/-- The per-user record built by `calculate_loyalty_points` (the `points`
dictionary). -/
structure Points where
  userId : Int
  total_points : ℚ
  from_deposits : ℚ
  from_withdrawals : ℚ
  from_frequency : ℚ
  from_games : ℚ
  from_daily_bonus : ℚ
  total_deposits : ℚ
  total_withdrawals : ℚ
  games_played : ℚ
  num_deposits : Nat
  num_withdrawals : Nat
  distinct_days : Nat
deriving DecidableEq

/-- `calculate_loyalty_points(user_data, start_date, end_date)` of
`app.py`, with the three ambient tables and the sidebar parameters passed
explicitly. -/
def calculate_loyalty_points (p : Params) (deposit withdrawal gameplays : List ParsedRow)
    (uid : Int) (start_date end_date : DateTime) : Points :=
  let user_deposits := filterUser deposit uid start_date end_date
  let user_withdrawals := filterUser withdrawal uid start_date end_date
  let user_games := filterUser gameplays uid start_date end_date
  let deposit_amt : ℚ := (user_deposits.map (fun r => r.measure)).sum
  let withdrawal_amt : ℚ := (user_withdrawals.map (fun r => r.measure)).sum
  let num_deposits : Nat := user_deposits.length
  let num_withdrawals : Nat := user_withdrawals.length
  let games_played : ℚ := (user_games.map (fun r => r.measure)).sum
  let distinct_days : Nat := (uniqueList (user_games.map (fun r => r.datetime.normalize))).length
  let deposit_points : ℚ :=
    if p.deposit_cap > 0 then min (p.deposit_multiplier * deposit_amt) p.deposit_cap
    else p.deposit_multiplier * deposit_amt
  let withdrawal_points : ℚ := p.withdrawal_multiplier * withdrawal_amt
  let frequency_points : ℚ :=
    p.frequency_multiplier * ((max ((num_deposits : ℤ) - (num_withdrawals : ℤ)) 0 : ℤ) : ℚ)
  let game_points : ℚ := p.gameplay_multiplier * games_played
  let daily_bonus_points : ℚ := p.daily_bonus * (distinct_days : ℚ)
  { userId := uid
    total_points := deposit_points + withdrawal_points + frequency_points +
      game_points + daily_bonus_points
    from_deposits := deposit_points
    from_withdrawals := withdrawal_points
    from_frequency := frequency_points
    from_games := game_points
    from_daily_bonus := daily_bonus_points
    total_deposits := deposit_amt
    total_withdrawals := withdrawal_amt
    games_played := games_played
    num_deposits := num_deposits
    num_withdrawals := num_withdrawals
    distinct_days := distinct_days }

/-- The sort relation of `monthly_rankings = points_df.sort_values(
[Total Points, Games Played], ascending = [False, False])`: `a` may come
before `b` when `a`'s key pair is lexicographically at least `b`'s (the
pandas sort is descending on both keys). -/
def rankLE (a b : Points) : Prop :=
  b.total_points < a.total_points ∨
    (a.total_points = b.total_points ∧ b.games_played ≤ a.games_played)

instance : DecidableRel rankLE := fun a b => by
  unfold rankLE
  exact inferInstance

instance : IsTotal Points rankLE where
  total a b := by
    unfold rankLE
    rcases lt_trichotomy a.total_points b.total_points with h | h | h
    · exact Or.inr (Or.inl h)
    · rcases le_total b.games_played a.games_played with hg | hg
      · exact Or.inl (Or.inr ⟨h, hg⟩)
      · exact Or.inr (Or.inr ⟨h.symm, hg⟩)
    · exact Or.inl (Or.inl h)

instance : IsTrans Points rankLE where
  trans a b c hab hbc := by
    unfold rankLE at *
    rcases hab with h1 | ⟨h1, g1⟩
    · rcases hbc with h2 | ⟨h2, g2⟩
      · exact Or.inl (lt_trans h2 h1)
      · exact Or.inl (h2 ▸ h1)
    · rcases hbc with h2 | ⟨h2, g2⟩
      · exact Or.inl (h1 ▸ h2)
      · exact Or.inr ⟨h1.trans h2, le_trans g2 g1⟩

/-- `pd.set`-union of the `User Id` columns of the three normalized tables
(`all_users` in `app.py`). -/
def all_users (deposit withdrawal gameplays : List ParsedRow) : List Int :=
  uniqueList ((deposit.map (fun r => r.userId)) ++ (withdrawal.map (fun r => r.userId)) ++
    (gameplays.map (fun r => r.userId)))

/-- The sorted rankings table, before the `Rank` column is added. -/
def monthly_rankings (results : List Points) : List Points :=
  List.insertionSort rankLE results

/-- One row of the rankings table after the `Rank` column assignment. -/
structure RankedUser where
  pts : Points
  rank : Nat
deriving DecidableEq

/-- The column assignment `monthly_rankings['Rank'] = range(1, len + 1)`:
pair each sorted row with its 1-based position. -/
def addRanks : Nat → List Points → List RankedUser
  | _, [] => []
  | n, p :: rest => ⟨p, n⟩ :: addRanks (n + 1) rest

/-- The whole analysis run on normalized tables: score every user of
`all_users`, sort, and assign ranks. -/
def run (p : Params) (deposit withdrawal gameplays : List ParsedRow)
    (start_date end_date : DateTime) : List RankedUser :=
  addRanks 1 (monthly_rankings
    ((all_users deposit withdrawal gameplays).map
      (fun uid => calculate_loyalty_points p deposit withdrawal gameplays uid
        start_date end_date)))

/-- `top_50 = monthly_rankings.head(50)`. -/
def top_50 (ranked : List RankedUser) : List RankedUser :=
  ranked.take 50

/-- `top_50['Total Points'].sum()`. -/
def totalPointsSum (top : List RankedUser) : ℚ :=
  (top.map (fun u => u.pts.total_points)).sum

/-- `top_50['Games Played'].sum()`. -/
def gamesSum (top : List RankedUser) : ℚ :=
  (top.map (fun u => u.pts.games_played)).sum

/-- `top_50['Total Deposits'].sum()`. -/
def depositsSum (top : List RankedUser) : ℚ :=
  (top.map (fun u => u.pts.total_deposits)).sum

/-- The `Proportional` column: `(points / points.sum()) * bonus_pool`.
When the denominator sum is zero the float division defines no currency
amount (`NaN`/`inf`), modelled as `none`; the code has no guard and no
fallback branch for that case. -/
def proportionalAlloc (bonus_pool : ℚ) (top : List RankedUser) : Option (List ℚ) :=
  if totalPointsSum top = 0 then none
  else some (top.map (fun u => u.pts.total_points / totalPointsSum top * bonus_pool))

/-- The `Tiered` amount of one row, by its `Rank` value: ranks up to 10 get
`bonus_pool * 0.3 / 10`, ranks 11 to 30 get `bonus_pool * 0.4 / 20`, every
later rank gets `bonus_pool * 0.3 / 20`. -/
def tiered (bonus_pool : ℚ) (rank : Nat) : ℚ :=
  if rank ≤ 10 then bonus_pool * (3 / 10) / 10
  else if rank ≤ 30 then bonus_pool * (4 / 10) / 20
  else bonus_pool * (3 / 10) / 20

/-- The `Tiered` column over the top-50 table. -/
def tieredAlloc (bonus_pool : ℚ) (top : List RankedUser) : List ℚ :=
  top.map (fun u => tiered bonus_pool u.rank)

/-- The `Hybrid` column: `(0.5 * points / points.sum() + 0.3 * games /
games.sum() + 0.2 * deposits / deposits.sum()) * bonus_pool`.  When any of
the three denominator sums is zero the float division defines no currency
amount, modelled as `none`; the code has no guard and no fallback. -/
def hybridAlloc (bonus_pool : ℚ) (top : List RankedUser) : Option (List ℚ) :=
  if totalPointsSum top = 0 ∨ gamesSum top = 0 ∨ depositsSum top = 0 then none
  else some (top.map (fun u =>
    ((1 / 2) * u.pts.total_points / totalPointsSum top +
     (3 / 10) * u.pts.games_played / gamesSum top +
     (1 / 5) * u.pts.total_deposits / depositsSum top) * bonus_pool))

/-- Spec-side definition (for comparison with the code, not taken from it):
the users that have at least one activity row, in any of the three tables,
whose timestamp lies inside the inclusive analysis window. -/
def usersWithWindowActivity (deposit withdrawal gameplays : List ParsedRow)
    (start_date end_date : DateTime) : List Int :=
  uniqueList (((deposit ++ withdrawal ++ gameplays).filter (fun r =>
    decide (start_date.toNat ≤ r.datetime.toNat) &&
    decide (r.datetime.toNat ≤ end_date.toNat))).map (fun r => r.userId))

/-- Spec-side definition: the rank band of the tiered allocation a rank
falls into (1 for ranks 1 to 10, 2 for 11 to 30, 3 beyond). -/
def band (rank : Nat) : Nat :=
  if rank ≤ 10 then 1 else if rank ≤ 30 then 2 else 3

/-- Spec-side definition: strict lexicographic comparison of the
`(totalPoints, totalGamesPlayed)` key pairs, both components descending. -/
def lexGt (a b : ℚ × ℚ) : Prop :=
  b.1 < a.1 ∨ (a.1 = b.1 ∧ b.2 < a.2)

/-- The ranking key pair of a ranked user. -/
def key (u : RankedUser) : ℚ × ℚ :=
  (u.pts.total_points, u.pts.games_played)

/-- Start of the October 2022 analysis window (`datetime(2022, 10, 1)`). -/
def octStart : DateTime := ⟨2022, 10, 1, 0, 0⟩

/-- End of the October 2022 analysis window (`datetime(2022, 10, 31, 23,
59, 59)`; the engine's timestamps carry no seconds). -/
def octEnd : DateTime := ⟨2022, 10, 31, 23, 59⟩

/-- A timestamp before the window. -/
def sep15 : DateTime := ⟨2022, 9, 15, 10, 0⟩

/-- A timestamp inside the window. -/
def oct05 : DateTime := ⟨2022, 10, 5, 10, 0⟩

/-- The default sidebar configuration (multipliers 0.01, 0.005, 0.001,
0.2, daily bonus 0, cap 0, pool 50000). -/
def exParams : Params := ⟨1/100, 1/200, 1/1000, 1/5, 0, 0, 50000⟩

/-- C1: the scoring computation yields the five components
`depositPoints = depositMultiplier × totalDepositAmount` clamped to
`min(depositPoints, depositCap)` exactly when `depositCap > 0`,
`withdrawalPoints = withdrawalMultiplier × totalWithdrawalAmount`,
`frequencyPoints = frequencyMultiplier × max(depositCount −
withdrawalCount, 0)`, `gameplayPoints = gameplayMultiplier ×
totalGamesPlayed`, `dailyBonusPoints = dailyBonusRate ×
distinctDaysPlayed`, and `totalPoints` is exactly the sum of the five. -/
theorem C1_scoring_formula (p : Params) (deposit withdrawal gameplays : List ParsedRow)
    (uid : Int) (start_date end_date : DateTime) :
    let pts := calculate_loyalty_points p deposit withdrawal gameplays uid start_date end_date
    pts.from_deposits =
      (if p.deposit_cap > 0 then min (p.deposit_multiplier * pts.total_deposits) p.deposit_cap
       else p.deposit_multiplier * pts.total_deposits) ∧
    pts.from_withdrawals = p.withdrawal_multiplier * pts.total_withdrawals ∧
    pts.from_frequency =
      p.frequency_multiplier *
        ((max ((pts.num_deposits : ℤ) - (pts.num_withdrawals : ℤ)) 0 : ℤ) : ℚ) ∧
    pts.from_games = p.gameplay_multiplier * pts.games_played ∧
    pts.from_daily_bonus = p.daily_bonus * (pts.distinct_days : ℚ) ∧
    pts.total_points = pts.from_deposits + pts.from_withdrawals + pts.from_frequency +
      pts.from_games + pts.from_daily_bonus :=
  ⟨rfl, rfl, rfl, rfl, rfl, rfl⟩

/-- C2: the per-table aggregation keeps exactly the rows with the user's
id and a timestamp inside the inclusive window, and a user with zero
matching rows in every table gets zero for every aggregate field and a
zero `totalPoints`, for any non-negative configuration. -/
theorem C2_window_filter_and_empty (p : Params)
    (deposit withdrawal gameplays : List ParsedRow) (uid : Int)
    (start_date end_date : DateTime)
    (hdm : 0 ≤ p.deposit_multiplier) (hwm : 0 ≤ p.withdrawal_multiplier)
    (hfm : 0 ≤ p.frequency_multiplier) (hgm : 0 ≤ p.gameplay_multiplier)
    (hdb : 0 ≤ p.daily_bonus) (hcap : 0 ≤ p.deposit_cap)
    (hd : filterUser deposit uid start_date end_date = [])
    (hw : filterUser withdrawal uid start_date end_date = [])
    (hg : filterUser gameplays uid start_date end_date = []) :
    (∀ (tbl : List ParsedRow) (r : ParsedRow),
        r ∈ filterUser tbl uid start_date end_date ↔
          r ∈ tbl ∧ r.userId = uid ∧ start_date.toNat ≤ r.datetime.toNat ∧
            r.datetime.toNat ≤ end_date.toNat) ∧
    (let pts := calculate_loyalty_points p deposit withdrawal gameplays uid start_date end_date
     pts.total_deposits = 0 ∧ pts.total_withdrawals = 0 ∧ pts.num_deposits = 0 ∧
       pts.num_withdrawals = 0 ∧ pts.games_played = 0 ∧ pts.distinct_days = 0 ∧
       pts.total_points = 0) := by
  constructor
  · intro tbl r
    simp [filterUser, List.mem_filter, and_assoc]
  · simp only [calculate_loyalty_points, hd, hw, hg]
    simp [uniqueList]
    exact fun h => hcap

/-- A deposit table whose only row belongs to another user. -/
def exDepC2 : List ParsedRow := [⟨102, 500, oct05⟩]

/-- Witness for C2 at a concrete input: user 101 with no matching rows. -/
theorem C2_window_filter_and_empty_witness :
    ((0:ℚ) ≤ exParams.deposit_multiplier ∧ (0:ℚ) ≤ exParams.withdrawal_multiplier ∧
      (0:ℚ) ≤ exParams.frequency_multiplier ∧ (0:ℚ) ≤ exParams.gameplay_multiplier ∧
      (0:ℚ) ≤ exParams.daily_bonus ∧ (0:ℚ) ≤ exParams.deposit_cap) ∧
    (filterUser exDepC2 101 octStart octEnd = [] ∧
      filterUser [] 101 octStart octEnd = []) ∧
    ((∀ (tbl : List ParsedRow) (r : ParsedRow),
        r ∈ filterUser tbl 101 octStart octEnd ↔
          r ∈ tbl ∧ r.userId = 101 ∧ octStart.toNat ≤ r.datetime.toNat ∧
            r.datetime.toNat ≤ octEnd.toNat) ∧
     (let pts := calculate_loyalty_points exParams exDepC2 [] [] 101 octStart octEnd
      pts.total_deposits = 0 ∧ pts.total_withdrawals = 0 ∧ pts.num_deposits = 0 ∧
        pts.num_withdrawals = 0 ∧ pts.games_played = 0 ∧ pts.distinct_days = 0 ∧
        pts.total_points = 0)) :=
  ⟨⟨by norm_num [exParams], by norm_num [exParams], by norm_num [exParams],
      by norm_num [exParams], by norm_num [exParams], by norm_num [exParams]⟩,
    ⟨by decide, by decide⟩,
    C2_window_filter_and_empty exParams exDepC2 [] [] 101 octStart octEnd
      (by norm_num [exParams]) (by norm_num [exParams]) (by norm_num [exParams])
      (by norm_num [exParams]) (by norm_num [exParams]) (by norm_num [exParams])
      (by decide) (by decide) (by decide)⟩

lemma addRanks_getElem? (n : Nat) (l : List Points) (i : Nat) :
    (addRanks n l)[i]? = (l[i]?).map (fun p => RankedUser.mk p (n + i)) := by
  induction l generalizing n i with
  | nil => simp [addRanks]
  | cons p rest ih =>
    cases i with
    | zero => simp [addRanks]
    | succ k =>
      have harith : n + 1 + k = n + (k + 1) := by omega
      simp [addRanks, ih (n + 1) k, harith]

lemma addRanks_length (n : Nat) (l : List Points) :
    (addRanks n l).length = l.length := by
  induction l generalizing n with
  | nil => rfl
  | cons p rest ih => simp [addRanks, ih (n + 1)]

lemma addRanks_rank (n : Nat) (l : List Points) (i : Fin (addRanks n l).length) :
    ((addRanks n l).get i).rank = n + i.val := by
  have hi : i.val < (addRanks n l).length := i.isLt
  have h1 : (addRanks n l)[i.val]? = some ((addRanks n l).get i) := by
    rw [List.getElem?_eq_getElem hi]
    simp [List.get_eq_getElem]
  rw [addRanks_getElem? n l i.val] at h1
  rcases Option.map_eq_some'.mp h1 with ⟨p, _, hmap⟩
  rw [← hmap]

lemma addRanks_pts (n : Nat) (l : List Points) (i : Fin (addRanks n l).length) :
    ∃ h : i.val < l.length, ((addRanks n l).get i).pts = l.get ⟨i.val, h⟩ := by
  have hi : i.val < (addRanks n l).length := i.isLt
  have heq : (addRanks n l).length = l.length := addRanks_length n l
  have hlen : i.val < l.length := by omega
  refine ⟨hlen, ?_⟩
  have h1 : (addRanks n l)[i.val]? = some ((addRanks n l).get i) := by
    rw [List.getElem?_eq_getElem hi]
    simp [List.get_eq_getElem]
  rw [addRanks_getElem? n l i.val, List.getElem?_eq_getElem hlen] at h1
  have h2 := (Option.some.injEq _ _).mp h1
  rw [← h2]
  simp [List.get_eq_getElem]

lemma map_rank_addRanks (n : Nat) (l : List Points) :
    (addRanks n l).map RankedUser.rank = List.range' n l.length := by
  induction l generalizing n with
  | nil => rfl
  | cons p rest ih => simp [addRanks, List.range'_succ, ih (n + 1)]

/-- C3 (amended): after one run the rank values are exactly `1..N` in
order, where `N` is the number of distinct users appearing anywhere in the
three normalized tables (`all_users`), not only those with window
activity. -/
theorem C3_ranks_are_positions (p : Params)
    (deposit withdrawal gameplays : List ParsedRow) (start_date end_date : DateTime) :
    (run p deposit withdrawal gameplays start_date end_date).map RankedUser.rank =
      List.range' 1 (all_users deposit withdrawal gameplays).length := by
  unfold run
  rw [map_rank_addRanks]
  congr 1
  calc (monthly_rankings ((all_users deposit withdrawal gameplays).map
          (fun uid => calculate_loyalty_points p deposit withdrawal gameplays uid
            start_date end_date))).length
      = ((all_users deposit withdrawal gameplays).map
          (fun uid => calculate_loyalty_points p deposit withdrawal gameplays uid
            start_date end_date)).length :=
        (List.perm_insertionSort rankLE _).length_eq
    _ = (all_users deposit withdrawal gameplays).length := List.length_map _ _

/-- A deposit table whose only activity lies before the October window. -/
def exDepC3 : List ParsedRow := [⟨101, 500, sep15⟩]

/-- Counterexample to C3 as stated: user 101 has no qualifying activity
inside the window (so the claim's `N` is 0), yet the run still ranks the
user, producing rank set `{1}` instead of `{1..0} = {}`. -/
theorem C3_counterexample :
    (run exParams exDepC3 [] [] octStart octEnd).map RankedUser.rank = [1] ∧
    (usersWithWindowActivity exDepC3 [] [] octStart octEnd).length = 0 ∧
    (run exParams exDepC3 [] [] octStart octEnd).map RankedUser.rank ≠
      List.range' 1 (usersWithWindowActivity exDepC3 [] [] octStart octEnd).length := by
  refine ⟨?_, by decide, ?_⟩
  · decide
  · decide

lemma rank_lt_iff_of_sorted (l : List Points) (hl : List.Pairwise rankLE l)
    (i j : Fin (addRanks 1 l).length)
    (hne : key ((addRanks 1 l).get i) ≠ key ((addRanks 1 l).get j)) :
    (((addRanks 1 l).get i).rank < ((addRanks 1 l).get j).rank ↔
      lexGt (key ((addRanks 1 l).get i)) (key ((addRanks 1 l).get j))) := by
  obtain ⟨hi, hpi⟩ := addRanks_pts 1 l i
  obtain ⟨hj, hpj⟩ := addRanks_pts 1 l j
  have hp := List.pairwise_iff_get.mp hl
  rw [addRanks_rank, addRanks_rank]
  unfold key
  rw [hpi, hpj]
  unfold key at hne
  rw [hpi, hpj] at hne
  set a := l.get ⟨i.val, hi⟩ with ha
  set b := l.get ⟨j.val, hj⟩ with hb
  have hrank : (1 + i.val < 1 + j.val) ↔ i.val < j.val := by omega
  rw [hrank]
  constructor
  · intro hij
    have hle : rankLE a b := hp ⟨i.val, hi⟩ ⟨j.val, hj⟩ (Fin.mk_lt_mk.mpr hij)
    rcases hle with h1 | ⟨h1, h2⟩
    · exact Or.inl h1
    · refine Or.inr ⟨h1, lt_of_le_of_ne h2 ?_⟩
      intro hgg
      exact hne (by rw [Prod.mk.injEq]; exact ⟨h1, hgg.symm⟩)
  · intro hgt
    rcases Nat.lt_trichotomy i.val j.val with h | h | h
    · exact h
    · exfalso
      apply hne
      have hfin : (⟨i.val, hi⟩ : Fin l.length) = ⟨j.val, hj⟩ := Fin.ext h
      rw [ha, hb, hfin]
    · exfalso
      have hle : rankLE b a := hp ⟨j.val, hj⟩ ⟨i.val, hi⟩ (Fin.mk_lt_mk.mpr h)
      unfold rankLE at hle
      unfold lexGt at hgt
      simp only at hgt hle
      rcases hgt with hg1 | ⟨hg1, hg2⟩ <;> rcases hle with h1 | ⟨h1, h2⟩ <;> linarith

/-- C4 (amended): the assigned ranks realise the descending lexicographic
tie-break on `(totalPoints, totalGamesPlayed)` for every pair of ranked
users with distinct key pairs; two users with identical key pairs still
receive distinct consecutive ranks, in an order the sort leaves
unspecified, so the equivalence is restricted to distinct keys. -/
theorem C4_rank_lt_iff_lexGt (p : Params)
    (deposit withdrawal gameplays : List ParsedRow) (start_date end_date : DateTime)
    (i j : Fin (run p deposit withdrawal gameplays start_date end_date).length)
    (hne : key ((run p deposit withdrawal gameplays start_date end_date).get i) ≠
      key ((run p deposit withdrawal gameplays start_date end_date).get j)) :
    (((run p deposit withdrawal gameplays start_date end_date).get i).rank <
        ((run p deposit withdrawal gameplays start_date end_date).get j).rank ↔
      lexGt (key ((run p deposit withdrawal gameplays start_date end_date).get i))
        (key ((run p deposit withdrawal gameplays start_date end_date).get j))) :=
  rank_lt_iff_of_sorted _ (List.sorted_insertionSort rankLE _) i j hne

/-- Two users whose only activity lies before the October window: both
score zero points with zero games, a full tie on the ranking key. -/
def exDepC4 : List ParsedRow := [⟨101, 500, sep15⟩, ⟨102, 700, sep15⟩]

/-- Counterexample to C4 as stated: the two tied users receive the
distinct ranks 1 and 2, yet neither key pair is lexicographically greater
than the other, so `rank_i < rank_j iff (key_i) >lex (key_j)` fails. -/
theorem C4_counterexample :
    (run exParams exDepC4 [] [] octStart octEnd).map RankedUser.rank = [1, 2] ∧
    (run exParams exDepC4 [] [] octStart octEnd).map key =
      [((0:ℚ), (0:ℚ)), ((0:ℚ), (0:ℚ))] ∧
    ¬ lexGt ((0:ℚ), (0:ℚ)) ((0:ℚ), (0:ℚ)) := by
  refine ⟨?_, ?_, by simp [lexGt]⟩ <;>
  norm_num [run, monthly_rankings, all_users, uniqueList, addRanks,
    calculate_loyalty_points, filterUser, exDepC4, List.insertionSort,
    List.orderedInsert, key, sep15, octStart, octEnd, DateTime.toNat, rankLE, exParams]

lemma proportional_sum_eq (bonus_pool : ℚ) (top : List RankedUser)
    (hs : totalPointsSum top ≠ 0) :
    ∃ l, proportionalAlloc bonus_pool top = some l ∧ l.sum = bonus_pool := by
  unfold proportionalAlloc
  rw [if_neg hs]
  refine ⟨_, rfl, ?_⟩
  have h1 : (top.map (fun u => u.pts.total_points / totalPointsSum top * bonus_pool)) =
      top.map (fun u => u.pts.total_points * (bonus_pool / totalPointsSum top)) := by
    apply List.map_congr_left
    intro u _
    rw [div_mul_eq_mul_div, mul_div_assoc]
  rw [h1, List.sum_map_mul_right]
  have h2 : (top.map (fun u => u.pts.total_points)).sum = totalPointsSum top := rfl
  rw [h2, mul_div_assoc']
  exact mul_div_cancel_left₀ bonus_pool hs

/-- C5 (amended): whenever the sum of `totalPoints` over the top-K subset
is nonzero, the Proportional amounts are defined and sum exactly to the
bonus pool.  (The claim's weaker premise — some user nonzero — does not
suffice: points may be negative and cancel, see the counterexample.) -/
theorem C5_proportional_sums_to_pool (bonus_pool : ℚ) (top : List RankedUser)
    (hs : totalPointsSum top ≠ 0) :
    ∃ l, proportionalAlloc bonus_pool top = some l ∧ l.sum = bonus_pool :=
  proportional_sum_eq bonus_pool top hs

/-- A scored-user record for concrete allocation inputs. -/
def mkPoints (uid : Int) (tp gp dep : ℚ) : Points :=
  { userId := uid, total_points := tp, from_deposits := 0, from_withdrawals := 0,
    from_frequency := 0, from_games := 0, from_daily_bonus := 0, total_deposits := dep,
    total_withdrawals := 0, games_played := gp, num_deposits := 0, num_withdrawals := 0,
    distinct_days := 0 }

/-- A two-user top subset with nonzero total points. -/
def exTopC5 : List RankedUser := [⟨mkPoints 101 5 3 2, 1⟩, ⟨mkPoints 102 5 1 4, 2⟩]

/-- Witness for C5 (amended) at a concrete top subset. -/
theorem C5_proportional_sums_to_pool_witness :
    totalPointsSum exTopC5 ≠ 0 ∧
    ∃ l, proportionalAlloc 50000 exTopC5 = some l ∧ l.sum = 50000 :=
  ⟨by norm_num [totalPointsSum, exTopC5, mkPoints],
   C5_proportional_sums_to_pool 50000 exTopC5
     (by norm_num [totalPointsSum, exTopC5, mkPoints])⟩

/-- Configuration with a negative withdrawal multiplier (the sidebar
slider allows −0.01 to 0.01), deposit multiplier 0.01. -/
def paramsC5 : Params := ⟨1/100, -(1/200), 0, 0, 0, 0, 50000⟩

/-- One user depositing 500 inside the window: +5 points. -/
def depC5 : List ParsedRow := [⟨101, 500, oct05⟩]

/-- Another user withdrawing 1000 inside the window: −5 points. -/
def wdC5 : List ParsedRow := [⟨102, 1000, oct05⟩]

/-- Counterexample to C5 as stated: user 101 has nonzero (+5) points, yet
the top-subset point total is 5 + (−5) = 0, so the Proportional division
has a zero denominator and defines no amounts at all — their sum is not
the pool. -/
theorem C5_counterexample :
    (∃ u ∈ top_50 (run paramsC5 depC5 wdC5 [] octStart octEnd),
      u.pts.total_points ≠ 0) ∧
    proportionalAlloc 50000 (top_50 (run paramsC5 depC5 wdC5 [] octStart octEnd)) =
      none := by
  constructor <;>
  norm_num [run, monthly_rankings, all_users, uniqueList, addRanks,
    calculate_loyalty_points, filterUser, List.insertionSort, List.orderedInsert,
    octStart, octEnd, oct05, DateTime.toNat, rankLE, paramsC5, depC5, wdC5,
    top_50, List.take, proportionalAlloc, totalPointsSum]

/-- Spec-side helper: the fraction of the pool one rank receives under the
tiered scheme. -/
def tieredFrac (rank : Nat) : ℚ :=
  if rank ≤ 10 then 3 / 100 else if rank ≤ 30 then 1 / 50 else 3 / 200

lemma tiered_eq_frac (bonus_pool : ℚ) (r : Nat) :
    tiered bonus_pool r = bonus_pool * tieredFrac r := by
  unfold tiered tieredFrac
  by_cases h1 : r ≤ 10
  · simp only [h1, if_true]
    ring
  · by_cases h2 : r ≤ 30 <;> simp only [h1, h2, if_true, if_false] <;> ring

lemma tieredFrac_sum : ((List.range' 1 50).map tieredFrac).sum = 1 := by
  norm_num [List.range', tieredFrac]

lemma tiered_sum_eq (bonus_pool : ℚ) (top : List RankedUser)
    (h50 : top.map RankedUser.rank = List.range' 1 50) :
    (tieredAlloc bonus_pool top).sum = bonus_pool := by
  unfold tieredAlloc
  have h1 : top.map (fun u => tiered bonus_pool u.rank) =
      (top.map RankedUser.rank).map (tiered bonus_pool) := by
    rw [List.map_map]
    rfl
  rw [h1, h50]
  have h2 : (List.range' 1 50).map (tiered bonus_pool) =
      (List.range' 1 50).map (fun r => bonus_pool * tieredFrac r) :=
    List.map_congr_left (fun r _ => tiered_eq_frac bonus_pool r)
  rw [h2, List.sum_map_mul_left, tieredFrac_sum, mul_one]

lemma hybrid_sum_eq (bonus_pool : ℚ) (top : List RankedUser)
    (hp : totalPointsSum top ≠ 0) (hg : gamesSum top ≠ 0) (hd : depositsSum top ≠ 0) :
    ∃ l, hybridAlloc bonus_pool top = some l ∧ l.sum = bonus_pool := by
  unfold hybridAlloc
  rw [if_neg (by push_neg; exact ⟨hp, hg, hd⟩)]
  refine ⟨_, rfl, ?_⟩
  have h1 : top.map (fun u =>
        ((1 / 2) * u.pts.total_points / totalPointsSum top +
         (3 / 10) * u.pts.games_played / gamesSum top +
         (1 / 5) * u.pts.total_deposits / depositsSum top) * bonus_pool) =
      top.map (fun u =>
        u.pts.total_points * ((1 / 2) * bonus_pool / totalPointsSum top) +
        (u.pts.games_played * ((3 / 10) * bonus_pool / gamesSum top) +
         u.pts.total_deposits * ((1 / 5) * bonus_pool / depositsSum top))) := by
    apply List.map_congr_left
    intro u _
    ring
  rw [h1, List.sum_map_add, List.sum_map_add, List.sum_map_mul_right,
    List.sum_map_mul_right, List.sum_map_mul_right]
  have e1 : (top.map fun u => u.pts.total_points).sum = totalPointsSum top := rfl
  have e2 : (top.map fun u => u.pts.games_played).sum = gamesSum top := rfl
  have e3 : (top.map fun u => u.pts.total_deposits).sum = depositsSum top := rfl
  rw [e1, e2, e3]
  field_simp
  ring

/-- C6 (amended): when the top-K subset holds exactly 50 users (ranks 1 to
50) and the point, games and deposit sums over it are nonzero, each of the
three allocation methods distributes amounts summing exactly to the pool.
As stated the claim fails: with fewer users the Tiered column uses the
fixed divisors 10, 20, 20 and its sum falls short of the pool. -/
theorem C6_methods_sum_to_pool (bonus_pool : ℚ) (ranked : List RankedUser)
    (h50 : (top_50 ranked).map RankedUser.rank = List.range' 1 50)
    (hp : totalPointsSum (top_50 ranked) ≠ 0)
    (hg : gamesSum (top_50 ranked) ≠ 0)
    (hd : depositsSum (top_50 ranked) ≠ 0) :
    (tieredAlloc bonus_pool (top_50 ranked)).sum = bonus_pool ∧
    (∃ l, proportionalAlloc bonus_pool (top_50 ranked) = some l ∧ l.sum = bonus_pool) ∧
    (∃ l, hybridAlloc bonus_pool (top_50 ranked) = some l ∧ l.sum = bonus_pool) :=
  ⟨tiered_sum_eq bonus_pool (top_50 ranked) h50,
   proportional_sum_eq bonus_pool (top_50 ranked) hp,
   hybrid_sum_eq bonus_pool (top_50 ranked) hp hg hd⟩

/-- A full ranked list of 50 users, each with one point, one game and one
unit deposit. -/
def exR50 : List RankedUser :=
  (List.range' 1 50).map (fun r => ⟨mkPoints (Int.ofNat r) 1 1 1, r⟩)

lemma exR50_top : top_50 exR50 = exR50 := by
  unfold top_50
  apply List.take_of_length_le
  simp [exR50]

lemma exR50_rank_map : (top_50 exR50).map RankedUser.rank = List.range' 1 50 := by
  rw [exR50_top]
  unfold exR50
  rw [List.map_map]
  exact (List.map_congr_left (fun r _ => rfl)).trans (List.map_id _)

lemma exR50_sums : totalPointsSum (top_50 exR50) = 50 ∧ gamesSum (top_50 exR50) = 50 ∧
    depositsSum (top_50 exR50) = 50 := by
  rw [exR50_top]
  refine ⟨?_, ?_, ?_⟩ <;>
  norm_num [totalPointsSum, gamesSum, depositsSum, exR50, mkPoints, List.range',
    Function.comp]

/-- Witness for C6 (amended): a 50-user top subset with nonzero sums. -/
theorem C6_methods_sum_to_pool_witness :
    ((top_50 exR50).map RankedUser.rank = List.range' 1 50 ∧
      totalPointsSum (top_50 exR50) ≠ 0 ∧ gamesSum (top_50 exR50) ≠ 0 ∧
      depositsSum (top_50 exR50) ≠ 0) ∧
    ((tieredAlloc 50000 (top_50 exR50)).sum = 50000 ∧
      (∃ l, proportionalAlloc 50000 (top_50 exR50) = some l ∧ l.sum = 50000) ∧
      (∃ l, hybridAlloc 50000 (top_50 exR50) = some l ∧ l.sum = 50000)) :=
  ⟨⟨exR50_rank_map, by rw [exR50_sums.1]; norm_num, by rw [exR50_sums.2.1]; norm_num,
      by rw [exR50_sums.2.2]; norm_num⟩,
    C6_methods_sum_to_pool 50000 exR50 exR50_rank_map
      (by rw [exR50_sums.1]; norm_num) (by rw [exR50_sums.2.1]; norm_num)
      (by rw [exR50_sums.2.2]; norm_num)⟩

/-- A deposit table giving a single ranked user. -/
def depC6 : List ParsedRow := [⟨101, 500, oct05⟩]

/-- Counterexample to C6 as stated: with a single user in the top subset
the Tiered amounts sum to `0.3 × pool / 10 = 1500`, not to the pool. -/
theorem C6_counterexample :
    (top_50 (run exParams depC6 [] [] octStart octEnd)).length = 1 ∧
    (tieredAlloc 50000 (top_50 (run exParams depC6 [] [] octStart octEnd))).sum ≠
      50000 := by
  constructor <;>
  norm_num [run, monthly_rankings, all_users, uniqueList, addRanks,
    calculate_loyalty_points, filterUser, List.insertionSort, List.orderedInsert,
    octStart, octEnd, oct05, DateTime.toNat, exParams, depC6, top_50, List.take,
    tieredAlloc, tiered]

/-- C7: tiered amounts depend only on the rank band: the `Tiered` column
maps each top-50 row through `tiered`; ranks 1..10 get `0.3 × pool / 10`,
ranks 11..30 get `0.4 × pool / 20`, ranks 31..50 get `0.3 × pool /
(50 − 30)`, and two ranks in the same band always get the same amount. -/
theorem C7_tiered_depends_on_band (bonus_pool : ℚ) :
    (∀ (top : List RankedUser), tieredAlloc bonus_pool top =
        top.map (fun u => tiered bonus_pool u.rank)) ∧
    (∀ r : Nat, 1 ≤ r → r ≤ 10 → tiered bonus_pool r = bonus_pool * (3 / 10) / 10) ∧
    (∀ r : Nat, 11 ≤ r → r ≤ 30 → tiered bonus_pool r = bonus_pool * (4 / 10) / 20) ∧
    (∀ r : Nat, 31 ≤ r → r ≤ 50 →
      tiered bonus_pool r = bonus_pool * (3 / 10) / ((50 : ℚ) - 30)) ∧
    (∀ r₁ r₂ : Nat, band r₁ = band r₂ → tiered bonus_pool r₁ = tiered bonus_pool r₂) := by
  refine ⟨fun top => rfl, ?_, ?_, ?_, ?_⟩
  · intro r h1 h2
    simp [tiered, h2]
  · intro r h1 h2
    have hn : ¬ r ≤ 10 := by omega
    simp [tiered, hn, h2]
  · intro r h1 h2
    have hn1 : ¬ r ≤ 10 := by omega
    have hn2 : ¬ r ≤ 30 := by omega
    simp [tiered, hn1, hn2]
    norm_num
  · intro r₁ r₂ hb
    unfold band at hb
    unfold tiered
    split_ifs at hb ⊢ <;> first | rfl | omega

/-- Witness for C7 at concrete ranks in each band. -/
theorem C7_tiered_depends_on_band_witness :
    ((1:Nat) ≤ 5 ∧ (5:Nat) ≤ 10 ∧ tiered 50000 5 = 50000 * (3 / 10) / 10) ∧
    ((11:Nat) ≤ 15 ∧ (15:Nat) ≤ 30 ∧ tiered 50000 15 = 50000 * (4 / 10) / 20) ∧
    ((31:Nat) ≤ 40 ∧ (40:Nat) ≤ 50 ∧
      tiered 50000 40 = 50000 * (3 / 10) / ((50 : ℚ) - 30)) ∧
    (band 7 = band 3 ∧ tiered 50000 7 = tiered 50000 3) :=
  ⟨⟨by decide, by decide, (C7_tiered_depends_on_band 50000).2.1 5 (by decide) (by decide)⟩,
   ⟨by decide, by decide,
     (C7_tiered_depends_on_band 50000).2.2.1 15 (by decide) (by decide)⟩,
   ⟨by decide, by decide,
     (C7_tiered_depends_on_band 50000).2.2.2.1 40 (by decide) (by decide)⟩,
   ⟨by decide, (C7_tiered_depends_on_band 50000).2.2.2.2 7 3 (by decide)⟩⟩

/-- C10: when the relevant denominator sums over the top subset are zero,
the Proportional and Hybrid divisions run unguarded and produce no defined
currency amounts (no fallback such as an equal split exists). -/
theorem C10_zero_denominator_unguarded (bonus_pool : ℚ) (top : List RankedUser) :
    (totalPointsSum top = 0 → proportionalAlloc bonus_pool top = none) ∧
    ((totalPointsSum top = 0 ∨ gamesSum top = 0 ∨ depositsSum top = 0) →
      hybridAlloc bonus_pool top = none) := by
  constructor
  · intro h
    unfold proportionalAlloc
    rw [if_pos h]
  · intro h
    unfold hybridAlloc
    rw [if_pos h]

/-- A one-user top subset whose user scored nothing. -/
def exTopZero : List RankedUser := [⟨mkPoints 103 0 0 0, 1⟩]

/-- Witness for C10 at a concrete all-zero top subset. -/
theorem C10_zero_denominator_unguarded_witness :
    (totalPointsSum exTopZero = 0 ∧ proportionalAlloc 50000 exTopZero = none) ∧
    ((totalPointsSum exTopZero = 0 ∨ gamesSum exTopZero = 0 ∨ depositsSum exTopZero = 0) ∧
      hybridAlloc 50000 exTopZero = none) := by
  have hz : totalPointsSum exTopZero = 0 := by
    norm_num [totalPointsSum, exTopZero, mkPoints]
  exact ⟨⟨hz, (C10_zero_denominator_unguarded 50000 exTopZero).1 hz⟩,
    ⟨Or.inl hz, (C10_zero_denominator_unguarded 50000 exTopZero).2 (Or.inl hz)⟩⟩

/-- C8: the validator errors (naming the table) exactly when the
`Datetime` column is absent, in which case it returns no table; otherwise
it returns the table restricted to the rows whose timestamp parses, and
surfaces the invalid-row count as a warning exactly when it is positive. -/
theorem C8_process_data_validation (df : RawTable) (name : String) :
    ((process_data df name).errorMsg.isSome ↔ df.hasDatetimeCol = false) ∧
    (df.hasDatetimeCol = false →
      (process_data df name).errorMsg =
        some (name ++ " data must contain a Datetime column") ∧
      (process_data df name).output = none) ∧
    (df.hasDatetimeCol = true →
      ∃ t, (process_data df name).output = some t ∧
        t.rows = (df.rows.map convertRow).filter (fun r => (cellParse r.datetime).isSome) ∧
        (∀ r ∈ t.rows, (cellParse r.datetime).isSome) ∧
        (invalidCount df > 0 →
          (process_data df name).warningCount = some (invalidCount df)) ∧
        (invalidCount df = 0 → (process_data df name).warningCount = none)) := by
  refine ⟨?_, ?_, ?_⟩
  · cases hb : df.hasDatetimeCol <;> simp [process_data, hb, apply_ite, ite_self]
  · intro h
    simp [process_data, h]
  · intro h
    by_cases hinv : invalidCount df > 0
    · refine ⟨(⟨true,
          (df.rows.map convertRow).filter (fun r => (cellParse r.datetime).isSome)⟩ :
            RawTable),
        ?_, rfl, ?_, ?_, ?_⟩
      · simp [process_data, h, hinv]
      · intro r hr
        have := List.mem_filter.mp hr
        exact this.2
      · intro _
        simp [process_data, h, hinv]
      · intro hz
        omega
    · have hz : invalidCount df = 0 := by omega
      refine ⟨(⟨true, df.rows.map convertRow⟩ : RawTable), ?_, ?_, ?_, ?_, ?_⟩
      · simp [process_data, h, hinv]
      · show (df.rows.map convertRow) =
          (df.rows.map convertRow).filter (fun r => (cellParse r.datetime).isSome)
        symm
        apply List.filter_eq_self.mpr
        intro r hr
        by_contra hns
        have hnone : (cellParse r.datetime).isNone := by
          cases hc : cellParse r.datetime <;> simp_all
        have hmem : r ∈ (df.rows.map convertRow).filter
            (fun r => (cellParse r.datetime).isNone) := List.mem_filter.mpr ⟨hr, hnone⟩
        have : 0 < invalidCount df := by
          unfold invalidCount
          exact List.length_pos.mpr (fun hemp => by simp [hemp] at hmem)
        omega
      · intro r hr
        rcases List.mem_map.mp hr with ⟨r₀, _, hr₀⟩
        by_contra hns
        have hnone : (cellParse r.datetime).isNone := by
          cases hc : cellParse r.datetime <;> simp_all
        have hmem : r ∈ (df.rows.map convertRow).filter
            (fun r => (cellParse r.datetime).isNone) :=
          List.mem_filter.mpr ⟨hr, hnone⟩
        have : 0 < invalidCount df := by
          unfold invalidCount
          exact List.length_pos.mpr (fun hemp => by simp [hemp] at hmem)
        omega
      · intro hc
        omega
      · intro _
        simp [process_data, h, hinv]

/-- A raw table with one parseable and one unparseable timestamp. -/
def exRaw : RawTable :=
  ⟨true, [⟨101, 500, Cell.str "01-10-2022 10:00"⟩, ⟨102, 300, Cell.str "not a date"⟩]⟩

/-- Witness for C8 at a concrete two-row table: one row fails to parse,
the warning carries count 1 and the returned table keeps the valid row. -/
theorem C8_process_data_validation_witness :
    invalidCount exRaw = 1 ∧
    exRaw.hasDatetimeCol = true ∧
    (∃ t, (process_data exRaw "Deposit").output = some t ∧
      t.rows = (exRaw.rows.map convertRow).filter (fun r => (cellParse r.datetime).isSome) ∧
      (∀ r ∈ t.rows, (cellParse r.datetime).isSome) ∧
      (invalidCount exRaw > 0 →
        (process_data exRaw "Deposit").warningCount = some (invalidCount exRaw)) ∧
      (invalidCount exRaw = 0 → (process_data exRaw "Deposit").warningCount = none)) :=
  ⟨by decide, rfl, (C8_process_data_validation exRaw "Deposit").2.2 rfl⟩

/-- C9 (amended): the validator does mutate the raw table it is given —
after the call the caller's object has its `Datetime` column overwritten
with the parse results (unparseable rows stay in it, marked invalid); the
input is untouched only when the `Datetime` column is absent. -/
theorem C9_normalizer_mutates_input (df : RawTable) (name : String) :
    (df.hasDatetimeCol = false → (process_data df name).post = df) ∧
    (df.hasDatetimeCol = true →
      (process_data df name).post =
        { hasDatetimeCol := true, rows := df.rows.map convertRow }) := by
  constructor <;> intro h <;> simp [process_data, h, apply_ite, ite_self]

/-- Witness for C9 (amended) at a concrete one-row table. -/
theorem C9_normalizer_mutates_input_witness :
    exRaw.hasDatetimeCol = true ∧
    (process_data exRaw "Deposit").post =
      { hasDatetimeCol := true, rows := exRaw.rows.map convertRow } :=
  ⟨rfl, (C9_normalizer_mutates_input exRaw "Deposit").2 rfl⟩

/-- Counterexample to C9 as stated: `process_data` does modify the raw
input table — the caller's object differs after the call (its Datetime
cells hold parse results instead of the original strings). -/
theorem C9_counterexample : (process_data exRaw "Deposit").post ≠ exRaw := by
  intro h
  have h1 := congrArg (fun t => t.rows) h
  simp [process_data, exRaw, convertRow, apply_ite, ite_self] at h1

lemma run_length (p : Params) (deposit withdrawal gameplays : List ParsedRow)
    (start_date end_date : DateTime) :
    (run p deposit withdrawal gameplays start_date end_date).length =
      (all_users deposit withdrawal gameplays).length := by
  unfold run monthly_rankings
  rw [addRanks_length, (List.perm_insertionSort rankLE _).length_eq, List.length_map]

/-- Two users with distinct in-window deposits, hence distinct keys. -/
def depC4b : List ParsedRow := [⟨101, 500, oct05⟩, ⟨102, 300, oct05⟩]

lemma runC4b_len : (run exParams depC4b [] [] octStart octEnd).length = 2 := by
  rw [run_length]
  decide

/-- Witness for C4 (amended): two ranked users with distinct keys. -/
theorem C4_rank_lt_iff_lexGt_witness :
    key ((run exParams depC4b [] [] octStart octEnd).get
        ⟨0, runC4b_len.symm ▸ (by decide : (0:Nat) < 2)⟩) ≠
      key ((run exParams depC4b [] [] octStart octEnd).get
        ⟨1, runC4b_len.symm ▸ (by decide : (1:Nat) < 2)⟩) ∧
    (((run exParams depC4b [] [] octStart octEnd).get
          ⟨0, runC4b_len.symm ▸ (by decide : (0:Nat) < 2)⟩).rank <
        ((run exParams depC4b [] [] octStart octEnd).get
          ⟨1, runC4b_len.symm ▸ (by decide : (1:Nat) < 2)⟩).rank ↔
      lexGt
        (key ((run exParams depC4b [] [] octStart octEnd).get
          ⟨0, runC4b_len.symm ▸ (by decide : (0:Nat) < 2)⟩))
        (key ((run exParams depC4b [] [] octStart octEnd).get
          ⟨1, runC4b_len.symm ▸ (by decide : (1:Nat) < 2)⟩))) := by
  have hne : key ((run exParams depC4b [] [] octStart octEnd).get
      ⟨0, runC4b_len.symm ▸ (by decide : (0:Nat) < 2)⟩) ≠
    key ((run exParams depC4b [] [] octStart octEnd).get
      ⟨1, runC4b_len.symm ▸ (by decide : (1:Nat) < 2)⟩) := by
    norm_num [run, monthly_rankings, all_users, uniqueList, addRanks,
      calculate_loyalty_points, filterUser, List.insertionSort, List.orderedInsert,
      octStart, octEnd, oct05, DateTime.toNat, rankLE, exParams, depC4b, key,
      List.get_eq_getElem, List.getElem_cons_zero, List.getElem_cons_succ,
      Prod.mk.injEq]
  exact ⟨hne, C4_rank_lt_iff_lexGt exParams depC4b [] [] octStart octEnd _ _ hne⟩
